import Mathlib

/-!
Shallow embedding of the `fical` calendar-filtering service (src/main.py).

External collaborators (the Python stdlib `urllib.parse` / `socket` /
`ipaddress`, the `requests` HTTP client, the `ics` calendar library and the
pydantic JSON codec) are modelled as explicit environment functions: DNS
resolution, HTTP GET, calendar parsing and request (de)serialization are
parameters of the pipeline, exactly as the code consumes their results.
The sqlite short-link table is modelled as an association list keyed by the
short-link id (a primary key: insert-or-replace removes any stale row).
-/

namespace Fical

/-- `REQUEST_TIMEOUT = 30` (src/main.py line 20). -/
def REQUEST_TIMEOUT : Nat := 30

/-- `EMPTY_ALLOWLIST_TOKEN` (src/main.py line 21). -/
def EMPTY_ALLOWLIST_TOKEN : String := "__empty_allowlist__"

/-- An `HTTPException`: status code plus detail message. -/
structure Err where
  status : Nat
  detail : String
deriving DecidableEq, Repr

/-- Classification flags of one resolved address, as reported by the Python
`ipaddress` library (external oracle) for that address. -/
structure IPAddr where
  is_private : Bool
  is_loopback : Bool
  is_link_local : Bool
  is_reserved : Bool
  is_unspecified : Bool
deriving DecidableEq, Repr

/-- The result of `urllib.parse.urlparse`: the components the code reads,
plus `geturl`, the canonical re-serialization of the parse result. -/
structure ParsedUrl where
  scheme : String
  netloc : String
  hostname : Option String
  geturl : String
deriving DecidableEq, Repr

/-- Outcome of `requests.get(url, timeout=REQUEST_TIMEOUT)`: a completed
HTTP exchange (any status code) with a body text, or one of the exception
classes the code distinguishes. -/
inductive GetOutcome where
  | completed (status : Nat) (text : String)
  | timeout
  | requestError
  | otherError
deriving DecidableEq, Repr

/-- A calendar event as the core sees it: the `ics` library owns the record;
the core only reads `name` (possibly absent).  `uid` and `payload` stand for
the rest of the event's content, which enters the library's event identity
used for set membership. -/
structure CalendarEvent where
  uid : String
  name : Option String
  payload : String
deriving DecidableEq, Repr

/-- An `ics.Calendar`: document metadata plus the set of events
(`cal.events` is a Python `set`). -/
structure Calendar where
  version : String
  prodid : String
  events : Finset CalendarEvent
deriving DecidableEq

/-- Outcome of `ics.Calendar(text)`: a parsed calendar, a `ValueError`
(malformed wire format), or any other exception. -/
inductive ParseOutcome where
  | ok (cal : Calendar)
  | valueError
  | otherError

/-- `CalendarInput` pydantic model (src/main.py lines 154-157). -/
structure CalendarInput where
  url : String
  allowlist : List String
  blocklist : List String
deriving DecidableEq, Repr

/-- `CombinedCalendarRequest` pydantic model (src/main.py lines 160-162). -/
structure CombinedCalendarRequest where
  calendars : List CalendarInput
  short : Bool
deriving DecidableEq, Repr

/-- The external world the pipeline consults: URL parsing, DNS resolution
(`none` models `socket.gaierror`), HTTP GET, calendar parsing, and the
pydantic JSON codec for `CombinedCalendarRequest`. -/
structure Env where
  urlparse : String → ParsedUrl
  getaddrinfo : String → Option (List IPAddr)
  httpGet : String → GetOutcome
  parseCalendar : String → ParseOutcome
  parseRequest : String → Except Err CombinedCalendarRequest
  dumpRequest : CombinedCalendarRequest → String

/-- The per-address test of src/main.py line 50. -/
def is_private_ip (ip : IPAddr) : Bool :=
  ip.is_private || ip.is_loopback || ip.is_link_local || ip.is_reserved || ip.is_unspecified

/-- `_is_private_host` (src/main.py lines 42-53): a failed resolution counts
as private (fail-closed); otherwise the host is private iff some resolved
address trips the line-50 test. -/
def is_private_host (resolve : String → Option (List IPAddr)) (hostname : String) : Bool :=
  match resolve hostname with
  | none => true
  | some addresses => addresses.any is_private_ip

/-- `_validate_and_normalize_url` (src/main.py lines 56-62). -/
def validate_and_normalize_url (env : Env) (raw_url : String) : Except Err String :=
  let parsed_url := env.urlparse raw_url
  if ¬ (parsed_url.scheme = "http" ∨ parsed_url.scheme = "https") ∨ parsed_url.netloc = "" then
    .error ⟨400, "Only http and https URLs are supported."⟩
  else
    match parsed_url.hostname with
    | none => .error ⟨400, "URL host is not allowed."⟩
    | some h =>
      if h = "" ∨ is_private_host env.getaddrinfo h then
        .error ⟨400, "URL host is not allowed."⟩
      else
        .ok parsed_url.geturl

/-- `_fetch_calendar_body` (src/main.py lines 65-75). -/
def fetch_calendar_body (httpGet : String → GetOutcome) (safe_url : String) :
    Except Err String :=
  match httpGet safe_url with
  | .completed _ text => .ok text
  | .timeout => .error ⟨400, "Timed out while getting the URL, timeout is 30 seconds."⟩
  | .requestError => .error ⟨400, "Error getting the URL."⟩
  | .otherError => .error ⟨500, "Error while fetching calendar contents."⟩

/-- Python `str.strip()`: drop whitespace from both ends. -/
def pyStrip (s : String) : String :=
  ⟨((s.toList.dropWhile Char.isWhitespace).reverse.dropWhile Char.isWhitespace).reverse⟩

/-- Contiguous-occurrence test on character lists: `need` occurs starting at
some position of the second argument. -/
def charsContainSeq (need : List Char) : List Char → Bool
  | [] => need.isEmpty
  | c :: t => need.isPrefixOf (c :: t) || charsContainSeq need t

/-- Python `needle in hay` on strings: contiguous-substring test. -/
def containsSubstr (hay need : String) : Bool :=
  charsContainSeq need.toList hay.toList

/-- The allowlist comprehension of src/main.py line 86: strip each entry,
drop entries that strip to empty or to the empty-allowlist sentinel. -/
def normalize_allowlist (allowlist : List String) : List String :=
  (allowlist.map pyStrip).filter (fun w => (w != "") && (w != EMPTY_ALLOWLIST_TOKEN))

/-- The blocklist comprehension of src/main.py line 87: strip each entry,
drop entries that strip to empty. -/
def normalize_blocklist (blocklist : List String) : List String :=
  (blocklist.map pyStrip).filter (fun w => w != "")

/-- The loop body of src/main.py lines 90-99 for one event, applied to the
already-normalized lists: keep iff allowed and not blocked. -/
def event_keep (allowlist blocklist : List String) (c : CalendarEvent) : Bool :=
  let name := c.name.getD ""
  let is_allowed := if allowlist.isEmpty then true
    else allowlist.any (fun word => containsSubstr name word)
  let is_blocked := blocklist.any (fun word => containsSubstr name word)
  is_allowed && !is_blocked

/-- `_filter_calendar_from_text` (src/main.py lines 78-102): parse, normalize
both lists, keep the surviving events (`cal.events = set(valid_events)`),
leaving the rest of the calendar unchanged. -/
def filter_calendar_from_text (parseCalendar : String → ParseOutcome)
    (cal_text : String) (allowlist blocklist : List String) : Except Err Calendar :=
  match parseCalendar cal_text with
  | .valueError => .error ⟨400, "Server response not a valid ics format."⟩
  | .otherError => .error ⟨500, "Error while parsing calendar contents."⟩
  | .ok cal =>
    let al := normalize_allowlist allowlist
    let bl := normalize_blocklist blocklist
    .ok { cal with events := cal.events.filter (fun c => event_keep al bl c = true) }

/-- `_filtered_calendar_from_url` (src/main.py lines 105-108):
validate, fetch, filter. -/
def filtered_calendar_from_url (env : Env) (raw_url : String)
    (allowlist blocklist : List String) : Except Err Calendar := do
  let safe_url ← validate_and_normalize_url env raw_url
  let remote_cal ← fetch_calendar_body env.httpGet safe_url
  filter_calendar_from_text env.parseCalendar remote_cal allowlist blocklist

/-- The metadata `ics.Calendar()` gives a freshly constructed calendar. -/
def ics_default_version : String := "2.0"

/-- The `ics` library's default product id for a fresh `Calendar()`. -/
def ics_default_creator : String := "ics.py - http://git.io/lLljaA"

/-- `Calendar()` — the fresh accumulator of src/main.py line 112. -/
def emptyCalendar : Calendar := ⟨ics_default_version, ics_default_creator, ∅⟩

/-- One iteration of the loop in `_combine_calendars` (src/main.py
lines 113-116): filter the entry, add its events to the accumulator set. -/
def combine_step (env : Env) (combined : Calendar) (entry : CalendarInput) :
    Except Err Calendar := do
  let filtered ← filtered_calendar_from_url env entry.url entry.allowlist entry.blocklist
  pure { combined with events := combined.events ∪ filtered.events }

/-- `_combine_calendars` (src/main.py lines 111-117). -/
def combine_calendars (env : Env) (inputs : List CalendarInput) : Except Err Calendar :=
  inputs.foldlM (combine_step env) emptyCalendar

/-- The sqlite `short_links` table: id (primary key) to payload. -/
abbrev Store := List (String × String)

/-- `_save_short_payload` (src/main.py lines 132-140); the fresh random key
from `secrets.token_urlsafe(6)` is passed in. `INSERT OR REPLACE` on the
primary key drops any previous row with the same id. -/
def save_short_payload (store : Store) (key payload : String) : String × Store :=
  (key, (key, payload) :: List.filter (fun kv => kv.1 != key) store)

/-- `_load_short_payload` (src/main.py lines 143-151). -/
def load_short_payload (store : Store) (key : String) : Except Err String :=
  match List.find? (fun kv => kv.1 == key) store with
  | none => .error ⟨404, "Short link not found."⟩
  | some kv => .ok kv.2

/-- A response of the `POST /calendars/combined.ics` endpoint: either the
short-link key or the combined calendar document. -/
inductive CombinedResult where
  | shortLink (key : String)
  | document (cal : Calendar)
deriving DecidableEq

/-- The batch-size guards of `combined_calendar`
(src/main.py lines 172-175). -/
def batch_size_check (calendars : List CalendarInput) : Except Err Unit :=
  if calendars = [] then .error ⟨400, "At least one calendar is required."⟩
  else if calendars.length > 5 then
    .error ⟨400, "Maximum of 5 calendars are allowed per request."⟩
  else .ok ()

/-- `combined_calendar` endpoint (src/main.py lines 170-183): batch-size
check, then either persist the serialized request under a fresh key or
combine immediately. -/
def combined_calendar (env : Env) (store : Store) (freshKey : String)
    (request : CombinedCalendarRequest) : Except Err (CombinedResult × Store) := do
  batch_size_check request.calendars
  if request.short then
    let saved := save_short_payload store freshKey (env.dumpRequest request)
    pure (.shortLink saved.1, saved.2)
  else
    let cal ← combine_calendars env request.calendars
    pure (.document cal, store)

/-- `resolve_short_link` endpoint (src/main.py lines 186-191): load the
stored payload, re-parse it, and re-run the whole combine pipeline. -/
def resolve_short_link (env : Env) (store : Store) (key : String) :
    Except Err Calendar := do
  let payload ← load_short_payload store key
  let data ← env.parseRequest payload
  combine_calendars env data.calendars

/-! ## Concrete fixtures (mirroring src/test_main.py's mocked world) -/

/-- A public, routable address: every `ipaddress` flag the code checks is
false. -/
def publicAddr : IPAddr := ⟨false, false, false, false, false⟩

/-- A loopback address (e.g. 127.0.0.1). -/
def loopbackAddr : IPAddr := ⟨false, true, false, false, false⟩

/-- An RFC 1918 private address (e.g. 10.0.0.1). -/
def privateAddr : IPAddr := ⟨true, false, false, false, false⟩

/-- The event of test_main.py's `ICS_SAMPLE`. -/
def evOne : CalendarEvent := ⟨"1", some "测试 event", ""⟩

/-- The event of test_main.py's `ICS_SAMPLE_TWO`. -/
def evTwo : CalendarEvent := ⟨"2", some "event two", ""⟩

/-- The parsed form of `ICS_SAMPLE`. -/
def sampleCal : Calendar := ⟨"2.0", "-//Example//EN", {evOne}⟩

/-- The parsed form of `ICS_SAMPLE_TWO`. -/
def sampleCalTwo : Calendar := ⟨"2.0", "-//Example//EN", {evTwo}⟩

/-- A calendar request with no keyword lists. -/
def inputOne : CalendarInput := ⟨"https://example.com/one.ics", [], []⟩

/-- A second calendar request with no keyword lists. -/
def inputTwo : CalendarInput := ⟨"https://example.com/two.ics", [], []⟩

/-- A benign world: every hostname resolves to one public address, every GET
completes with status 200 and body "BODY", every body parses to `sampleCal`.
`urlparse` reports an https URL on host example.com and echoes the raw URL
as its canonical form. -/
def baseEnv : Env where
  urlparse := fun u => ⟨"https", "example.com", some "example.com", u⟩
  getaddrinfo := fun _ => some [publicAddr]
  httpGet := fun _ => .completed 200 "BODY"
  parseCalendar := fun _ => .ok sampleCal
  parseRequest := fun _ => .error ⟨500, "no parse"⟩
  dumpRequest := fun _ => ""

/-- A world where no hostname resolves (`socket.gaierror` everywhere). -/
def noResolveEnv : Env :=
  { baseEnv with getaddrinfo := fun _ => none }

/-- A world whose URLs all parse with scheme `ftp`. -/
def ftpEnv : Env :=
  { baseEnv with urlparse := fun u => ⟨"ftp", "example.com", some "example.com", u⟩ }

/-- A world where hostnames resolve to one public and one loopback address
(multi-address / rebinding shape). -/
def mixedEnv : Env :=
  { baseEnv with getaddrinfo := fun _ => some [publicAddr, loopbackAddr] }

/-- A world where the upstream completes every GET with HTTP status 500 and
a non-calendar body that the ics library rejects with `ValueError`. -/
def errorPageEnv : Env :=
  { baseEnv with
    httpGet := fun _ => .completed 500 "Internal Server Error"
    parseCalendar := fun _ => .valueError }

/-- A world with two distinct upstream feeds: one URL serves a body parsing
to `sampleCal`, every other URL serves a body parsing to `sampleCalTwo`. -/
def twoFeedEnv : Env where
  urlparse := fun u => ⟨"https", "example.com", some "example.com", u⟩
  getaddrinfo := fun _ => some [publicAddr]
  httpGet := fun u =>
    if u = "https://example.com/one.ics" then .completed 200 "ONE"
    else .completed 200 "TWO"
  parseCalendar := fun b => if b = "ONE" then .ok sampleCal else .ok sampleCalTwo
  parseRequest := fun _ => .error ⟨500, "no parse"⟩
  dumpRequest := fun _ => ""

/-- A world like `baseEnv` whose stored-payload codec parses every payload
into a one-calendar combined request. -/
def resolveEnv : Env :=
  { baseEnv with parseRequest := fun _ => .ok ⟨[inputOne], false⟩ }

/-- A store holding one short link. -/
def storeOne : Store := [("abc123", "payload")]

/-- The document `_combine_calendars` produces for `[inputOne]` in the
benign world: the fresh calendar's default metadata plus the surviving
event. -/
def combinedOutOne : Calendar := ⟨ics_default_version, ics_default_creator, {evOne}⟩

deriving instance DecidableEq for Except

/-! ## Helper lemmas -/

theorem except_ok_bind {α β : Type} (a : α) (f : α → Except Err β) :
    (Except.ok a >>= f) = f a := rfl

theorem except_error_bind {α β : Type} (e : Err) (f : α → Except Err β) :
    ((Except.error e : Except Err α) >>= f) = .error e := rfl

theorem except_bind_ok {α β : Type} (x : Except Err α) (f : α → Except Err β) (b : β) :
    x >>= f = .ok b ↔ ∃ a, x = .ok a ∧ f a = .ok b := by
  cases x <;> simp [Bind.bind, Except.bind]

theorem combine_step_ok (env : Env) (acc : Calendar) (entry : CalendarInput) (c : Calendar) :
    combine_step env acc entry = .ok c ↔
      ∃ fc, filtered_calendar_from_url env entry.url entry.allowlist entry.blocklist = .ok fc ∧
        c = ⟨acc.version, acc.prodid, acc.events ∪ fc.events⟩ := by
  unfold combine_step
  rw [except_bind_ok]
  constructor
  · rintro ⟨fc, hfc, hp⟩
    exact ⟨fc, hfc, by cases acc; simpa [pure, Except.pure, eq_comm] using hp⟩
  · rintro ⟨fc, hfc, hp⟩
    exact ⟨fc, hfc, by cases acc; simpa [pure, Except.pure, eq_comm] using hp⟩

theorem combine_fold_ok (env : Env) (l : List CalendarInput) :
    ∀ acc c, List.foldlM (combine_step env) acc l = .ok c →
      c.version = acc.version ∧ c.prodid = acc.prodid ∧
      (∀ e ∈ l, ∃ fc,
        filtered_calendar_from_url env e.url e.allowlist e.blocklist = .ok fc) ∧
      (∀ ev, ev ∈ c.events ↔ ev ∈ acc.events ∨
        ∃ e ∈ l, ∃ fc,
          filtered_calendar_from_url env e.url e.allowlist e.blocklist = .ok fc ∧
          ev ∈ fc.events) := by
  induction l with
  | nil =>
    intro acc c hc
    simp only [List.foldlM_nil] at hc
    cases hc
    simp
  | cons e t ih =>
    intro acc c hc
    rw [List.foldlM_cons, except_bind_ok] at hc
    obtain ⟨mid, hmid, hrest⟩ := hc
    obtain ⟨fc, hfc, hmideq⟩ := (combine_step_ok env acc e mid).mp hmid
    obtain ⟨hv, hp, hall, hmem⟩ := ih mid c hrest
    subst hmideq
    refine ⟨hv, hp, ?_, ?_⟩
    · intro e2 he2
      rcases List.mem_cons.mp he2 with he2 | he2
      · subst he2
        exact ⟨fc, hfc⟩
      · exact hall e2 he2
    · intro ev
      rw [hmem ev]
      simp only [Finset.mem_union, List.mem_cons]
      constructor
      · rintro (⟨hv2 | hv2⟩ | ⟨e2, he2, fc2, hfc2, hev⟩)
        · exact Or.inl hv2
        · exact Or.inr ⟨e, Or.inl rfl, fc, hfc, hv2⟩
        · exact Or.inr ⟨e2, Or.inr he2, fc2, hfc2, hev⟩
      · rintro (hv2 | ⟨e2, he2 | he2, fc2, hfc2, hev⟩)
        · exact Or.inl (Or.inl hv2)
        · subst he2
          rw [hfc] at hfc2
          cases hfc2
          exact Or.inl (Or.inr hev)
        · exact Or.inr ⟨e2, he2, fc2, hfc2, hev⟩

theorem combine_fold_total (env : Env) (l : List CalendarInput)
    (hok : ∀ e ∈ l, ∃ fc,
      filtered_calendar_from_url env e.url e.allowlist e.blocklist = .ok fc) :
    ∀ acc, ∃ c, List.foldlM (combine_step env) acc l = .ok c := by
  induction l with
  | nil => intro acc; exact ⟨acc, rfl⟩
  | cons e t ih =>
    intro acc
    obtain ⟨fc, hfc⟩ := hok e (by simp)
    have hok' : ∀ e2 ∈ t, ∃ fc2,
        filtered_calendar_from_url env e2.url e2.allowlist e2.blocklist = .ok fc2 := by
      intro e2 he2; exact hok e2 (by simp [he2])
    obtain ⟨c, hc⟩ := ih hok' ⟨acc.version, acc.prodid, acc.events ∪ fc.events⟩
    refine ⟨c, ?_⟩
    rw [List.foldlM_cons, except_bind_ok]
    exact ⟨_, (combine_step_ok env acc e _).mpr ⟨fc, hfc, rfl⟩, hc⟩

theorem event_keep_iff (al bl : List String) (c : CalendarEvent) :
    event_keep al bl c = true ↔
      ((al = [] ∨ ∃ w ∈ al, containsSubstr (c.name.getD "") w = true) ∧
        ¬ ∃ w ∈ bl, containsSubstr (c.name.getD "") w = true) := by
  cases al with
  | nil => simp [event_keep, List.any_eq_true]
  | cons a as => simp [event_keep, List.any_eq_true]

/-! ## Claims -/

/-- Claim C2: a URL whose hostname fails to resolve is rejected fail-closed:
`_is_private_host` reports the host as private on `gaierror`, so (for a URL
that passes the scheme/netloc step) `_validate_and_normalize_url` raises the
DisallowedHost error "URL host is not allowed."; a resolution failure is
never treated as safe. -/
theorem resolution_failure_rejected (env : Env) (raw_url h : String)
    (hscheme : (env.urlparse raw_url).scheme = "http" ∨
      (env.urlparse raw_url).scheme = "https")
    (hnet : (env.urlparse raw_url).netloc ≠ "")
    (hhost : (env.urlparse raw_url).hostname = some h)
    (hres : env.getaddrinfo h = none) :
    is_private_host env.getaddrinfo h = true ∧
    validate_and_normalize_url env raw_url = .error ⟨400, "URL host is not allowed."⟩ := by
  have hpriv : is_private_host env.getaddrinfo h = true := by
    simp [is_private_host, hres]
  refine ⟨hpriv, ?_⟩
  simp only [validate_and_normalize_url]
  rw [if_neg (fun hc => hc.elim (fun hna => hna hscheme) hnet)]
  rw [hhost]
  exact if_pos (Or.inr (by simpa using hpriv))

/-- Witness for C2 at a concrete world where nothing resolves. -/
theorem resolution_failure_rejected_witness :
    ((noResolveEnv.urlparse "https://dead.example/").scheme = "http" ∨
      (noResolveEnv.urlparse "https://dead.example/").scheme = "https") ∧
    (noResolveEnv.urlparse "https://dead.example/").netloc ≠ "" ∧
    (noResolveEnv.urlparse "https://dead.example/").hostname = some "example.com" ∧
    noResolveEnv.getaddrinfo "example.com" = none ∧
    (is_private_host noResolveEnv.getaddrinfo "example.com" = true ∧
      validate_and_normalize_url noResolveEnv "https://dead.example/" =
        .error ⟨400, "URL host is not allowed."⟩) :=
  ⟨Or.inr rfl, by decide, rfl, rfl,
    resolution_failure_rejected noResolveEnv "https://dead.example/" "example.com"
      (Or.inr rfl) (by decide) rfl rfl⟩

/-- Claim C5: `_validate_and_normalize_url` rejects any URL whose parsed
scheme is not exactly http or https or whose network location is absent,
with the UnsupportedScheme error; and every successful validation returns
`geturl`, the canonical re-serialization of the parse result, as the value
to fetch. -/
theorem validate_scheme_and_canonical_url (env : Env) (raw_url : String) :
    ((¬ ((env.urlparse raw_url).scheme = "http" ∨
        (env.urlparse raw_url).scheme = "https") ∨
      (env.urlparse raw_url).netloc = "") →
      validate_and_normalize_url env raw_url =
        .error ⟨400, "Only http and https URLs are supported."⟩) ∧
    ∀ s, validate_and_normalize_url env raw_url = .ok s →
      s = (env.urlparse raw_url).geturl := by
  constructor
  · intro hc
    simp only [validate_and_normalize_url]
    rw [if_pos hc]
  · intro s hs
    simp only [validate_and_normalize_url] at hs
    split at hs
    · exact absurd hs (by simp)
    · split at hs
      · exact absurd hs (by simp)
      · split at hs
        · exact absurd hs (by simp)
        · cases hs
          rfl

/-- Witness for C5 at a concrete world whose URLs parse with scheme ftp. -/
theorem validate_scheme_and_canonical_url_witness :
    (¬ ((ftpEnv.urlparse "ftp://example.com/").scheme = "http" ∨
        (ftpEnv.urlparse "ftp://example.com/").scheme = "https") ∨
      (ftpEnv.urlparse "ftp://example.com/").netloc = "") ∧
    validate_and_normalize_url ftpEnv "ftp://example.com/" =
      .error ⟨400, "Only http and https URLs are supported."⟩ :=
  ⟨Or.inl (by decide),
    (validate_scheme_and_canonical_url ftpEnv "ftp://example.com/").1 (Or.inl (by decide))⟩

/-- Claim C7: a save immediately followed by a load of the returned key
yields exactly the stored payload; loading a key held by no row of the store
fails with the NotFound error, whose 404 status is in the client (4xx)
class. -/
theorem short_link_store_contract (store : Store) (key payload unknownKey : String)
    (hfresh : ∀ kv ∈ store, kv.1 ≠ unknownKey) :
    load_short_payload (save_short_payload store key payload).2
        (save_short_payload store key payload).1 = .ok payload ∧
    load_short_payload store unknownKey = .error ⟨404, "Short link not found."⟩ ∧
    400 ≤ 404 ∧ 404 < 500 := by
  refine ⟨?_, ?_, by norm_num, by norm_num⟩
  · simp [save_short_payload, load_short_payload, List.find?]
  · have hnone : List.find? (fun kv => kv.1 == unknownKey) store = none :=
      List.find?_eq_none.mpr (fun kv hkv => by simpa using hfresh kv hkv)
    simp [load_short_payload, hnone]

/-- Witness for C7: round trip on the empty store, unknown key "missing". -/
theorem short_link_store_contract_witness :
    (∀ kv ∈ ([] : Store), kv.1 ≠ "missing") ∧
    (load_short_payload (save_short_payload [] "abc123" "payload").2
        (save_short_payload [] "abc123" "payload").1 = .ok "payload" ∧
      load_short_payload [] "missing" = .error ⟨404, "Short link not found."⟩ ∧
      400 ≤ 404 ∧ 404 < 500) :=
  ⟨fun kv hkv => absurd hkv (List.not_mem_nil kv),
    short_link_store_contract [] "abc123" "payload" "missing"
      (fun kv hkv => absurd hkv (List.not_mem_nil kv))⟩

/-- The `combined_calendar` endpoint surfaces a failed batch-size check
as-is: the request never reaches the store or the combiner. -/
theorem combined_calendar_check_error (env : Env) (store : Store) (freshKey : String)
    (request : CombinedCalendarRequest) (e : Err)
    (h : batch_size_check request.calendars = .error e) :
    combined_calendar env store freshKey request = .error e := by
  unfold combined_calendar
  rw [h, except_error_bind]

/-- Claim C8: a combined request with 0 calendars or more than 5 calendars
is rejected by the endpoint with a 400 (client) error — never a server
error — while every length from 1 to 5 passes the batch-size check. -/
theorem batch_size_policy (env : Env) (store : Store) (freshKey : String)
    (request : CombinedCalendarRequest) :
    (request.calendars.length = 0 ∨ request.calendars.length > 5 →
      ∃ e : Err, batch_size_check request.calendars = .error e ∧ e.status = 400 ∧
        combined_calendar env store freshKey request = .error e) ∧
    (1 ≤ request.calendars.length ∧ request.calendars.length ≤ 5 →
      batch_size_check request.calendars = .ok ()) := by
  constructor
  · intro hlen
    rcases hlen with h0 | h5
    · have hnil : request.calendars = [] := List.length_eq_zero.mp h0
      have hcheck : batch_size_check request.calendars =
          .error ⟨400, "At least one calendar is required."⟩ := by
        simp [batch_size_check, hnil]
      exact ⟨_, hcheck, rfl,
        combined_calendar_check_error env store freshKey request _ hcheck⟩
    · have hne : ¬ request.calendars = [] := by
        intro hnil
        rw [hnil] at h5
        simp at h5
      have hcheck : batch_size_check request.calendars =
          .error ⟨400, "Maximum of 5 calendars are allowed per request."⟩ := by
        unfold batch_size_check
        rw [if_neg hne, if_pos h5]
      exact ⟨_, hcheck, rfl,
        combined_calendar_check_error env store freshKey request _ hcheck⟩
  · rintro ⟨h1, h5⟩
    have hne : ¬ request.calendars = [] := by
      intro hnil
      rw [hnil] at h1
      simp at h1
    unfold batch_size_check
    rw [if_neg hne, if_neg (by omega)]

/-- Witness for C8: a batch of six calendars is refused with a 400 error. -/
theorem batch_size_policy_witness :
    ((CombinedCalendarRequest.mk (List.replicate 6 inputOne) false).calendars.length = 0 ∨
      (CombinedCalendarRequest.mk (List.replicate 6 inputOne) false).calendars.length > 5) ∧
    ∃ e : Err,
      batch_size_check (CombinedCalendarRequest.mk (List.replicate 6 inputOne) false).calendars =
        .error e ∧ e.status = 400 ∧
      combined_calendar baseEnv [] "k"
        (CombinedCalendarRequest.mk (List.replicate 6 inputOne) false) = .error e :=
  ⟨Or.inr (by decide),
    (batch_size_policy baseEnv [] "k"
      (CombinedCalendarRequest.mk (List.replicate 6 inputOne) false)).1 (Or.inr (by decide))⟩

/-- Claim C10: when the HTTP exchange completes, `_fetch_calendar_body`
returns the response body whatever the HTTP status code (there is no
status check), so an upstream error status yields neither FetchTimeout nor
FetchError; a non-calendar error page only fails later, when the ics parser
raises ValueError, surfacing as the InvalidCalendarFormat error. -/
theorem fetch_status_insensitive (env : Env) (raw_url s : String) (status : Nat)
    (body : String) (allowlist blocklist : List String) :
    (env.httpGet s = .completed status body →
      fetch_calendar_body env.httpGet s = .ok body) ∧
    (validate_and_normalize_url env raw_url = .ok s →
      env.httpGet s = .completed status body →
      env.parseCalendar body = .valueError →
      filtered_calendar_from_url env raw_url allowlist blocklist =
        .error ⟨400, "Server response not a valid ics format."⟩) := by
  constructor
  · intro h
    unfold fetch_calendar_body
    rw [h]
  · intro hv hg hp
    have h1 : fetch_calendar_body env.httpGet s = .ok body := by
      unfold fetch_calendar_body
      rw [hg]
    have h2 : filter_calendar_from_text env.parseCalendar body allowlist blocklist =
        .error ⟨400, "Server response not a valid ics format."⟩ := by
      unfold filter_calendar_from_text
      rw [hp]
    unfold filtered_calendar_from_url
    rw [hv, except_ok_bind, h1, except_ok_bind, h2]

/-- Witness for C10 at a concrete world whose upstream answers 500 with a
non-calendar body. -/
theorem fetch_status_insensitive_witness :
    errorPageEnv.httpGet "https://example.com/cal.ics" =
      .completed 500 "Internal Server Error" ∧
    validate_and_normalize_url errorPageEnv "https://example.com/cal.ics" =
      .ok "https://example.com/cal.ics" ∧
    errorPageEnv.parseCalendar "Internal Server Error" = .valueError ∧
    (fetch_calendar_body errorPageEnv.httpGet "https://example.com/cal.ics" =
      .ok "Internal Server Error" ∧
    filtered_calendar_from_url errorPageEnv "https://example.com/cal.ics" [] [] =
      .error ⟨400, "Server response not a valid ics format."⟩) := by
  have hv : validate_and_normalize_url errorPageEnv "https://example.com/cal.ics" =
      .ok "https://example.com/cal.ics" := rfl
  have ht := fetch_status_insensitive errorPageEnv "https://example.com/cal.ics"
    "https://example.com/cal.ics" 500 "Internal Server Error" [] []
  exact ⟨rfl, hv, rfl, ht.1 rfl, ht.2 hv rfl rfl⟩

/-- Claim C1: if a URL's hostname resolves to an address set with at least
one private-use, loopback, link-local, reserved or unspecified member, then
(past the scheme/netloc step) validation rejects it with the DisallowedHost
error — even when public addresses are also present; and validation accepts
only when every resolved address is outside all of those ranges. -/
theorem multi_address_rejection (env : Env) (raw_url h : String) (addrs : List IPAddr)
    (hscheme : (env.urlparse raw_url).scheme = "http" ∨
      (env.urlparse raw_url).scheme = "https")
    (hnet : (env.urlparse raw_url).netloc ≠ "")
    (hhost : (env.urlparse raw_url).hostname = some h)
    (hres : env.getaddrinfo h = some addrs)
    (hbad : ∃ a ∈ addrs, is_private_ip a = true) :
    validate_and_normalize_url env raw_url = .error ⟨400, "URL host is not allowed."⟩ ∧
    ∀ url2 s, validate_and_normalize_url env url2 = .ok s →
      ∀ h2 addrs2, (env.urlparse url2).hostname = some h2 →
        env.getaddrinfo h2 = some addrs2 →
        ∀ a ∈ addrs2, is_private_ip a = false := by
  constructor
  · have hpriv : is_private_host env.getaddrinfo h = true := by
      simp only [is_private_host, hres]
      exact List.any_eq_true.mpr (by simpa using hbad)
    simp only [validate_and_normalize_url]
    rw [if_neg (fun hc => hc.elim (fun hna => hna hscheme) hnet)]
    rw [hhost]
    exact if_pos (Or.inr (by simpa using hpriv))
  · intro url2 s hs h2 addrs2 hh2 hres2
    simp only [validate_and_normalize_url] at hs
    split at hs
    · exact absurd hs (by simp)
    · simp only [hh2] at hs
      split at hs
      · exact absurd hs (by simp)
      · rename_i hcond2
        have hnp : ¬ (is_private_host env.getaddrinfo h2 = true) :=
          fun ht => hcond2 (Or.inr ht)
        simp only [is_private_host, hres2] at hnp
        intro a ha
        cases hpt : is_private_ip a
        · rfl
        · exact absurd (List.any_eq_true.mpr ⟨a, ha, hpt⟩) hnp

/-- Witness for C1: a hostname resolving to one public and one loopback
address is rejected. -/
theorem multi_address_rejection_witness :
    ((mixedEnv.urlparse "https://evil.example/").scheme = "http" ∨
      (mixedEnv.urlparse "https://evil.example/").scheme = "https") ∧
    (mixedEnv.urlparse "https://evil.example/").netloc ≠ "" ∧
    (mixedEnv.urlparse "https://evil.example/").hostname = some "example.com" ∧
    mixedEnv.getaddrinfo "example.com" = some [publicAddr, loopbackAddr] ∧
    (∃ a ∈ [publicAddr, loopbackAddr], is_private_ip a = true) ∧
    validate_and_normalize_url mixedEnv "https://evil.example/" =
      .error ⟨400, "URL host is not allowed."⟩ :=
  ⟨Or.inr rfl, by decide, rfl, rfl, ⟨loopbackAddr, by decide, rfl⟩,
    (multi_address_rejection mixedEnv "https://evil.example/" "example.com"
      [publicAddr, loopbackAddr] (Or.inr rfl) (by decide) rfl rfl
      ⟨loopbackAddr, by decide, rfl⟩).1⟩

/-- Claim C4: filtering keeps an event (matching on its display name, empty
string when absent) iff it is allowed and not blocked, where both keyword
lists are first stripped of whitespace, entries that become empty are
dropped, and the empty-allowlist sentinel is dropped from the allowlist
only; an empty normalized allowlist allows everything, otherwise some
allowlist keyword must occur as a literal substring of the name; a
non-empty normalized blocklist blocks on any substring hit, and a block
wins over an allow. -/
theorem filter_keeps_iff_allowed_not_blocked (parseCal : String → ParseOutcome)
    (cal_text : String) (allowlist blocklist : List String) (cal : Calendar)
    (hparse : parseCal cal_text = .ok cal) :
    ∃ out, filter_calendar_from_text parseCal cal_text allowlist blocklist = .ok out ∧
      (∀ ev, ev ∈ out.events ↔
        (ev ∈ cal.events ∧
          ((normalize_allowlist allowlist = [] ∨
            ∃ w ∈ normalize_allowlist allowlist,
              containsSubstr (ev.name.getD "") w = true) ∧
          ¬ ∃ w ∈ normalize_blocklist blocklist,
              containsSubstr (ev.name.getD "") w = true))) ∧
      (∀ w, w ∈ normalize_allowlist allowlist ↔
        ((∃ w0 ∈ allowlist, pyStrip w0 = w) ∧ w ≠ "" ∧ w ≠ EMPTY_ALLOWLIST_TOKEN)) ∧
      (∀ w, w ∈ normalize_blocklist blocklist ↔
        ((∃ w0 ∈ blocklist, pyStrip w0 = w) ∧ w ≠ "")) := by
  refine ⟨Calendar.mk cal.version cal.prodid (cal.events.filter
      (fun c => event_keep (normalize_allowlist allowlist)
        (normalize_blocklist blocklist) c = true)), ?_, ?_, ?_, ?_⟩
  · simp only [filter_calendar_from_text, hparse]
  · intro ev
    simp only [Finset.mem_filter]
    rw [event_keep_iff]
  · intro w
    simp only [normalize_allowlist, EMPTY_ALLOWLIST_TOKEN, List.mem_filter, List.mem_map,
      Bool.and_eq_true, bne_iff_ne, ne_eq]
  · intro w
    simp only [normalize_blocklist, List.mem_filter, List.mem_map, bne_iff_ne, ne_eq]

/-- Witness for C4: the spec's scenario — event "测试 event", allowlist
["测试"], blocklist ["禁止"] — instantiated in the benign world. -/
theorem filter_keeps_iff_allowed_not_blocked_witness :
    baseEnv.parseCalendar "BODY" = .ok sampleCal ∧
    ∃ out, filter_calendar_from_text baseEnv.parseCalendar "BODY" ["测试"] ["禁止"] = .ok out ∧
      (∀ ev, ev ∈ out.events ↔
        (ev ∈ sampleCal.events ∧
          ((normalize_allowlist ["测试"] = [] ∨
            ∃ w ∈ normalize_allowlist ["测试"],
              containsSubstr (ev.name.getD "") w = true) ∧
          ¬ ∃ w ∈ normalize_blocklist ["禁止"],
              containsSubstr (ev.name.getD "") w = true))) ∧
      (∀ w, w ∈ normalize_allowlist ["测试"] ↔
        ((∃ w0 ∈ ["测试"], pyStrip w0 = w) ∧ w ≠ "" ∧ w ≠ EMPTY_ALLOWLIST_TOKEN)) ∧
      (∀ w, w ∈ normalize_blocklist ["禁止"] ↔
        ((∃ w0 ∈ ["禁止"], pyStrip w0 = w) ∧ w ≠ "")) :=
  ⟨rfl, filter_keeps_iff_allowed_not_blocked baseEnv.parseCalendar "BODY"
    ["测试"] ["禁止"] sampleCal rfl⟩

/-- Claim C6: when every request in a batch yields a filtered calendar, the
combined output is the deduplicating union (a set) of the surviving events,
and it is order-independent: any permutation of the batch succeeds and
yields the same event set. -/
theorem combine_calendars_order_independent (env : Env) (l l2 : List CalendarInput)
    (hperm : l.Perm l2)
    (hok : ∀ e ∈ l, ∃ fc,
      filtered_calendar_from_url env e.url e.allowlist e.blocklist = .ok fc) :
    ∃ c c2, combine_calendars env l = .ok c ∧ combine_calendars env l2 = .ok c2 ∧
      c.events = c2.events ∧
      ∀ ev, ev ∈ c.events ↔
        ∃ e ∈ l, ∃ fc,
          filtered_calendar_from_url env e.url e.allowlist e.blocklist = .ok fc ∧
          ev ∈ fc.events := by
  have hok2 : ∀ e ∈ l2, ∃ fc,
      filtered_calendar_from_url env e.url e.allowlist e.blocklist = .ok fc :=
    fun e he => hok e (hperm.mem_iff.mpr he)
  obtain ⟨c, hc⟩ := combine_fold_total env l hok emptyCalendar
  obtain ⟨c2, hc2⟩ := combine_fold_total env l2 hok2 emptyCalendar
  obtain ⟨-, -, -, hmem⟩ := combine_fold_ok env l emptyCalendar c hc
  obtain ⟨-, -, -, hmem2⟩ := combine_fold_ok env l2 emptyCalendar c2 hc2
  refine ⟨c, c2, hc, hc2, ?_, ?_⟩
  · apply Finset.ext
    intro ev
    rw [hmem ev, hmem2 ev]
    simp only [emptyCalendar, Finset.not_mem_empty, false_or]
    constructor
    · rintro ⟨e, he, rest⟩
      exact ⟨e, hperm.mem_iff.mp he, rest⟩
    · rintro ⟨e, he, rest⟩
      exact ⟨e, hperm.mem_iff.mpr he, rest⟩
  · intro ev
    rw [hmem ev]
    simp [emptyCalendar]

/-- Witness for C6: combining the two-feed world's requests in both orders. -/
theorem combine_calendars_order_independent_witness :
    [inputOne, inputTwo].Perm [inputTwo, inputOne] ∧
    (∀ e ∈ [inputOne, inputTwo], ∃ fc,
      filtered_calendar_from_url twoFeedEnv e.url e.allowlist e.blocklist = .ok fc) ∧
    ∃ c c2, combine_calendars twoFeedEnv [inputOne, inputTwo] = .ok c ∧
      combine_calendars twoFeedEnv [inputTwo, inputOne] = .ok c2 ∧
      c.events = c2.events ∧
      ∀ ev, ev ∈ c.events ↔
        ∃ e ∈ [inputOne, inputTwo], ∃ fc,
          filtered_calendar_from_url twoFeedEnv e.url e.allowlist e.blocklist = .ok fc ∧
          ev ∈ fc.events := by
  have hok : ∀ e ∈ [inputOne, inputTwo], ∃ fc,
      filtered_calendar_from_url twoFeedEnv e.url e.allowlist e.blocklist = .ok fc := by
    intro e he
    rcases List.mem_cons.mp he with rfl | he
    · exact ⟨_, rfl⟩
    · rcases List.mem_cons.mp he with rfl | he
      · exact ⟨_, rfl⟩
      · exact absurd he (List.not_mem_nil e)
  exact ⟨List.Perm.swap inputTwo inputOne [], hok,
    combine_calendars_order_independent twoFeedEnv [inputOne, inputTwo]
      [inputTwo, inputOne] (List.Perm.swap inputTwo inputOne []) hok⟩

theorem validate_congr (env env' : Env) (hu : env'.urlparse = env.urlparse)
    (hr : env'.getaddrinfo = env.getaddrinfo) (u : String) :
    validate_and_normalize_url env' u = validate_and_normalize_url env u := by
  unfold validate_and_normalize_url
  rw [hu, hr]

theorem filtered_congr (env env' : Env) (hu : env'.urlparse = env.urlparse)
    (hr : env'.getaddrinfo = env.getaddrinfo)
    (hc : env'.parseCalendar = env.parseCalendar)
    (hg : ∀ u s, validate_and_normalize_url env u = .ok s →
      env'.httpGet s = env.httpGet s)
    (u : String) (al bl : List String) :
    filtered_calendar_from_url env' u al bl = filtered_calendar_from_url env u al bl := by
  unfold filtered_calendar_from_url
  rw [validate_congr env env' hu hr u]
  cases hv : validate_and_normalize_url env u with
  | error e => rw [except_error_bind, except_error_bind]
  | ok s =>
    rw [except_ok_bind, except_ok_bind]
    unfold fetch_calendar_body
    rw [hg u s hv, hc]

theorem combine_congr (env env' : Env) (hu : env'.urlparse = env.urlparse)
    (hr : env'.getaddrinfo = env.getaddrinfo)
    (hc : env'.parseCalendar = env.parseCalendar)
    (hg : ∀ u s, validate_and_normalize_url env u = .ok s →
      env'.httpGet s = env.httpGet s)
    (l : List CalendarInput) :
    combine_calendars env' l = combine_calendars env l := by
  have hstep : ∀ acc e, combine_step env' acc e = combine_step env acc e := by
    intro acc e
    unfold combine_step
    rw [filtered_congr env env' hu hr hc hg e.url e.allowlist e.blocklist]
  unfold combine_calendars
  generalize emptyCalendar = acc
  induction l generalizing acc with
  | nil => rfl
  | cons e t ih =>
    rw [List.foldlM_cons, List.foldlM_cons, hstep acc e]
    cases hs : combine_step env acc e with
    | error err => rw [except_error_bind, except_error_bind]
    | ok mid => rw [except_ok_bind, except_ok_bind, ih]

/-- Claim C3: resolving a short link re-runs the stored payload through the
full pipeline, re-validating every URL from scratch before any fetch: the
outcome is unchanged under any modification of the HTTP layer away from
validated URLs (so no stored URL is ever fetched without passing the §4.1
check first), and a successful resolution certifies that every URL of the
stored request passed `_validate_and_normalize_url` at resolution time. -/
theorem resolve_short_link_revalidates (env env' : Env) (store : Store) (key : String)
    (hu : env'.urlparse = env.urlparse) (hr : env'.getaddrinfo = env.getaddrinfo)
    (hc : env'.parseCalendar = env.parseCalendar)
    (hq : env'.parseRequest = env.parseRequest)
    (hg : ∀ u s, validate_and_normalize_url env u = .ok s →
      env'.httpGet s = env.httpGet s) :
    resolve_short_link env' store key = resolve_short_link env store key ∧
    ∀ cal, resolve_short_link env store key = .ok cal →
      ∃ payload data, load_short_payload store key = .ok payload ∧
        env.parseRequest payload = .ok data ∧
        combine_calendars env data.calendars = .ok cal ∧
        ∀ e ∈ data.calendars, ∃ s,
          validate_and_normalize_url env e.url = .ok s := by
  constructor
  · unfold resolve_short_link
    rw [hq]
    cases hl : load_short_payload store key with
    | error e => rw [except_error_bind, except_error_bind]
    | ok payload =>
      rw [except_ok_bind, except_ok_bind]
      cases hp : env.parseRequest payload with
      | error e => rw [except_error_bind, except_error_bind]
      | ok data => rw [except_ok_bind, except_ok_bind, combine_congr env env' hu hr hc hg]
  · intro cal hcal
    unfold resolve_short_link at hcal
    rw [except_bind_ok] at hcal
    obtain ⟨payload, hload, hrest⟩ := hcal
    rw [except_bind_ok] at hrest
    obtain ⟨data, hdata, hcomb⟩ := hrest
    refine ⟨payload, data, hload, hdata, hcomb, ?_⟩
    have hall := (combine_fold_ok env data.calendars emptyCalendar cal hcomb).2.2.1
    intro e he
    obtain ⟨fc, hfc⟩ := hall e he
    unfold filtered_calendar_from_url at hfc
    rw [except_bind_ok] at hfc
    obtain ⟨s, hs, -⟩ := hfc
    exact ⟨s, hs⟩

/-- Witness for C3 at a concrete store and codec (the reference world is
compared with itself, so every agreement hypothesis is definitional). -/
theorem resolve_short_link_revalidates_witness :
    resolveEnv.urlparse = resolveEnv.urlparse ∧
    resolveEnv.getaddrinfo = resolveEnv.getaddrinfo ∧
    resolveEnv.parseCalendar = resolveEnv.parseCalendar ∧
    resolveEnv.parseRequest = resolveEnv.parseRequest ∧
    (∀ u s, validate_and_normalize_url resolveEnv u = .ok s →
      resolveEnv.httpGet s = resolveEnv.httpGet s) ∧
    (resolve_short_link resolveEnv storeOne "abc123" =
        resolve_short_link resolveEnv storeOne "abc123" ∧
      ∀ cal, resolve_short_link resolveEnv storeOne "abc123" = .ok cal →
        ∃ payload data, load_short_payload storeOne "abc123" = .ok payload ∧
          resolveEnv.parseRequest payload = .ok data ∧
          combine_calendars resolveEnv data.calendars = .ok cal ∧
          ∀ e ∈ data.calendars, ∃ s,
            validate_and_normalize_url resolveEnv e.url = .ok s) :=
  ⟨rfl, rfl, rfl, rfl, fun _ _ _ => rfl,
    resolve_short_link_revalidates resolveEnv resolveEnv storeOne "abc123"
      rfl rfl rfl rfl (fun _ _ _ => rfl)⟩

/-- Counterexample for Claim C9 as stated: in the benign world the upstream
document carries the Example product id, yet the combined output document
carries the calendar library's default metadata — the document metadata of
the processed calendar is not passed through by `_combine_calendars`, which
starts from a fresh `Calendar()`. -/
theorem combine_discards_input_metadata :
    combine_calendars baseEnv [inputOne] = .ok combinedOutOne ∧
    baseEnv.parseCalendar "BODY" = .ok sampleCal ∧
    sampleCal.prodid = "-//Example//EN" ∧
    combinedOutOne.prodid ≠ "-//Example//EN" := by
  refine ⟨by decide, rfl, rfl, by decide⟩

/-- Claim C9 (amended): filtering and combination never mutate event
contents — every output event is an element, unchanged, of a source event
set — and filtering passes the document metadata (version, product id)
through unchanged; the combined output document, however, carries the
library's fresh-calendar default metadata, not the input documents'. -/
theorem frame_events_unchanged (parseCal : String → ParseOutcome) (env : Env)
    (cal_text : String) (allowlist blocklist : List String) (cal : Calendar) :
    (parseCal cal_text = .ok cal →
      ∃ out, filter_calendar_from_text parseCal cal_text allowlist blocklist = .ok out ∧
        out.version = cal.version ∧ out.prodid = cal.prodid ∧
        out.events ⊆ cal.events) ∧
    (∀ inputs c, combine_calendars env inputs = .ok c →
      c.version = ics_default_version ∧ c.prodid = ics_default_creator ∧
      ∀ ev ∈ c.events, ∃ e ∈ inputs, ∃ fc,
        filtered_calendar_from_url env e.url e.allowlist e.blocklist = .ok fc ∧
        ev ∈ fc.events) := by
  constructor
  · intro hparse
    refine ⟨Calendar.mk cal.version cal.prodid (cal.events.filter
        (fun c => event_keep (normalize_allowlist allowlist)
          (normalize_blocklist blocklist) c = true)), ?_, rfl, rfl,
      Finset.filter_subset _ _⟩
    simp only [filter_calendar_from_text, hparse]
  · intro inputs c hcomb
    obtain ⟨hv, hp, -, hmem⟩ := combine_fold_ok env inputs emptyCalendar c hcomb
    refine ⟨hv, hp, ?_⟩
    intro ev hev
    rcases (hmem ev).mp hev with hemp | hsrc
    · exact absurd hemp (Finset.not_mem_empty ev)
    · exact hsrc

/-- Witness for the amended C9 at the benign world's sample document. -/
theorem frame_events_unchanged_witness :
    baseEnv.parseCalendar "BODY" = .ok sampleCal ∧
    ∃ out, filter_calendar_from_text baseEnv.parseCalendar "BODY" [] [] = .ok out ∧
      out.version = sampleCal.version ∧ out.prodid = sampleCal.prodid ∧
      out.events ⊆ sampleCal.events :=
  ⟨rfl, (frame_events_unchanged baseEnv.parseCalendar baseEnv "BODY" [] [] sampleCal).1 rfl⟩

end Fical
